import Mathlib

/-!
Shallow embedding of the wsl-mcp session core (session manager, command
protocol, output cleaners, background-process poller, log tailer) and proofs
about the claims of its specification.

Text is modelled as `String` at the interface and `List Char` internally.
JavaScript string primitives (`trim`, `slice`, `substring`, `lastIndexOf`,
`includes`, regex scans) are embedded as executable functions that replicate
the semantics actually exercised by the source.  Asynchronous waiting and pty
I/O are modelled by explicit environment records (`ExecEnv`, `CreateEnv`)
supplying the nondeterministic outcomes (generated ids, pty allocation
success, observed capture buffer, whether the end marker appeared in time).
-/

set_option autoImplicit false

namespace WslMcp

/- ## Character classes and basic JS string primitives -/

/-- JavaScript `\s` / `trim` whitespace for the characters that occur in
terminal streams (space, tab, newline, carriage return, vertical tab, form
feed, no-break space, BOM). -/
def jsSpace (c : Char) : Bool :=
  c = ' ' || c = '\t' || c = '\n' || c = '\r' ||
  c = '\x0b' || c = '\x0c' || c = ' ' || c = '﻿'

def isDigit (c : Char) : Bool := '0' ≤ c && c ≤ '9'

def isAsciiAlpha (c : Char) : Bool := ('a' ≤ c && c ≤ 'z') || ('A' ≤ c && c ≤ 'Z')

def isAlnum (c : Char) : Bool := isAsciiAlpha c || isDigit c

/-- JavaScript `\w` word characters. -/
def isWordChar (c : Char) : Bool := isAlnum c || c = '_'

/-- ASCII lowering, the fragment of JS `toLowerCase` the cleaners rely on. -/
def lowerChar (c : Char) : Char :=
  if 'A' ≤ c && c ≤ 'Z' then Char.ofNat (c.toNat + 32) else c

def lowerStr (s : String) : String := String.mk (s.data.map lowerChar)

/-- Boolean prefix test on character lists. -/
def isPre : List Char → List Char → Bool
  | [], _ => true
  | _ :: _, [] => false
  | a :: as, b :: bs => a = b && isPre as bs

/-- JS `String.prototype.includes`: `pat` occurs as a contiguous substring. -/
def containsSub (pat : List Char) : List Char → Bool
  | [] => isPre pat []
  | c :: r => isPre pat (c :: r) || containsSub pat r

/-- Scan for `pat` reachable through `.*` (which cannot cross a newline):
used for unanchored regex tails such as `.*\$echo` and `.*===`. -/
def scanPat (pat : List Char) : List Char → Bool
  | [] => isPre pat []
  | c :: r => isPre pat (c :: r) || (c ≠ '\n' && scanPat pat r)

/-- Scan for the literal `stop` reachable through `.*`, then test the rest:
the regex fragment `.*stop` followed by `tailT`. -/
def scanFor (stop : Char) (tailT : List Char → Bool) : List Char → Bool
  | [] => false
  | c :: r => (c = stop && tailT r) || (c ≠ '\n' && scanFor stop tailT r)

/-- The regex fragment `.+stop` followed by `tailT` (at least one character
before `stop`). -/
def scanForPos (stop : Char) (tailT : List Char → Bool) : List Char → Bool
  | [] => false
  | c :: r => c ≠ '\n' && scanFor stop tailT r

/-- The regex fragment `\s*` followed by one character satisfying `k`. -/
def wsThen (k : Char → Bool) : List Char → Bool
  | [] => false
  | c :: r => k c || (jsSpace c && wsThen k r)

def allSpace (l : List Char) : Bool := l.all jsSpace

def dropTrailingWs (l : List Char) : List Char :=
  (l.reverse.dropWhile jsSpace).reverse

def trimEndL (l : List Char) : List Char := dropTrailingWs l

def jsTrimL (l : List Char) : List Char :=
  dropTrailingWs (l.dropWhile jsSpace)

/-- JS `String.prototype.trim`. -/
def jsTrim (s : String) : String := String.mk (jsTrimL s.data)

/-- JS `s.slice(n)` for a nonnegative index. -/
def jsSliceFrom (s : String) (n : Nat) : String := String.mk (s.data.drop n)

/-- JS `s.slice(-n)`: the last `n` characters, except that `-0` is `0` and
yields the whole string. -/
def jsSliceNeg (s : String) (n : Nat) : String :=
  if n = 0 then s else String.mk (s.data.drop (s.data.length - n))

/-- JS `s.substring(a, b)`: clamps to the string and swaps the endpoints when
`a > b`. -/
def jsSubstring (s : String) (a b : Nat) : String :=
  String.mk ((s.data.take (max a b)).drop (min a b))

/-- JS `s.lastIndexOf(pat)` as an `Option`: the greatest index at which `pat`
occurs as a prefix of the remaining text. -/
def lastIndexOf? (l pat : List Char) : Option Nat :=
  (List.range (l.length + 1)).foldl
    (fun acc i => if isPre pat (l.drop i) then some i else acc) none

/-- Decimal value of a digit run (JS `parseInt(.., 10)` on the capture). -/
def digitsToNat (l : List Char) : Nat :=
  l.foldl (fun a c => a * 10 + (c.toNat - 48)) 0

/-- JS `a || b` on an optional string: falsy (`undefined` or empty) falls
back to the default. -/
def jsOr (o : Option String) (d : String) : String :=
  match o with
  | none => d
  | some s => if s = "" then d else s

/-- JS `a || b` on an optional number: falsy (`undefined` or `0`) falls back
to the default. -/
def jsOrNat (o : Option Nat) (d : Nat) : Nat :=
  match o with
  | none => d
  | some n => if n = 0 then d else n

/- ## Splitting into lines and joining back -/

/-- `s.split('\n')` on character lists; always returns at least one piece. -/
def splitNL : List Char → List (List Char)
  | [] => [[]]
  | c :: rest =>
    if c = '\n' then [] :: splitNL rest
    else
      match splitNL rest with
      | [] => [[c]]
      | l :: ls => (c :: l) :: ls

/-- `pieces.join('\n')` on character lists. -/
def joinNL : List (List Char) → List Char
  | [] => []
  | [x] => x
  | x :: xs => x ++ '\n' :: joinNL xs

/- ## Global regex replacement

`s.replace(re, repl)` with the `g` flag scans left to right; at each position
it either removes/replaces the (leftmost-greedy) match and resumes after it,
or keeps the character and advances by one.  Each concrete pattern of the
source is embedded as a matcher returning the length of the match at the
head of the list (`none` when there is no match there). -/

/-- Fuel-indexed replacement scanner; `fuel` is the input length, which always
suffices because every match consumes at least one character. -/
def replA (m : List Char → Option Nat) (repl : List Char) :
    Nat → List Char → List Char
  | 0, l => l
  | _ + 1, [] => []
  | fuel + 1, c :: r =>
    match m (c :: r) with
    | some n => repl ++ replA m repl fuel (r.drop (n - 1))
    | none => c :: replA m repl fuel r

def jsReplaceAll (m : List Char → Option Nat) (repl : List Char)
    (l : List Char) : List Char :=
  replA m repl l.length l

/-- Matcher for `\x1b\[[0-9;]*m` (SGR color/style sequences). -/
def mSGR : List Char → Option Nat
  | '\x1b' :: '[' :: r =>
    let n := (r.takeWhile (fun c => isDigit c || c = ';')).length
    match r.drop n with
    | 'm' :: _ => some (n + 3)
    | _ => none
  | _ => none

/-- Matcher for `\x1b\[[0-9;]*[ABCDHfJK]` (cursor movement / clear). -/
def mCursor : List Char → Option Nat
  | '\x1b' :: '[' :: r =>
    let n := (r.takeWhile (fun c => isDigit c || c = ';')).length
    match r.drop n with
    | c :: _ =>
      if c = 'A' || c = 'B' || c = 'C' || c = 'D' || c = 'H' || c = 'f' ||
         c = 'J' || c = 'K' then some (n + 3) else none
    | [] => none
  | _ => none

/-- Matcher for `\x1b\][^\x07\x1b]*(\x07|\x1b\\)` (OSC sequences). -/
def mOSC : List Char → Option Nat
  | '\x1b' :: ']' :: r =>
    let n := (r.takeWhile (fun c => c ≠ '\x07' && c ≠ '\x1b')).length
    match r.drop n with
    | '\x07' :: _ => some (n + 3)
    | '\x1b' :: '\\' :: _ => some (n + 4)
    | _ => none
  | _ => none

/-- Matcher for `\x1b[()[\]#+.][A-Za-z0-9]?` (charset and related). -/
def mCharset : List Char → Option Nat
  | '\x1b' :: c :: r =>
    if c = '(' || c = ')' || c = '[' || c = ']' || c = '#' || c = '+' || c = '.' then
      match r with
      | d :: _ => if isAlnum d then some 3 else some 2
      | [] => some 2
    else none
  | _ => none

/-- Matcher for `\x1b[><=]` (keypad mode). -/
def mKeypad : List Char → Option Nat
  | '\x1b' :: c :: _ => if c = '>' || c = '<' || c = '=' then some 2 else none
  | _ => none

/-- Matcher for `\x1b\[[0-9;]*[a-zA-Z]` (remaining CSI sequences). -/
def mCSI : List Char → Option Nat
  | '\x1b' :: '[' :: r =>
    let n := (r.takeWhile (fun c => isDigit c || c = ';')).length
    match r.drop n with
    | c :: _ => if isAsciiAlpha c then some (n + 3) else none
    | [] => none
  | _ => none

/-- Matcher for `\[\?[0-9]+[hl]` (private mode toggles). -/
def mBracketPriv : List Char → Option Nat
  | '[' :: '?' :: r =>
    let n := (r.takeWhile isDigit).length
    if n = 0 then none else
    match r.drop n with
    | c :: _ => if c = 'h' || c = 'l' then some (n + 3) else none
    | [] => none
  | _ => none

/-- Matcher for `\?[0-9]+[hl]` (residue of private mode toggles). -/
def mPriv : List Char → Option Nat
  | '?' :: r =>
    let n := (r.takeWhile isDigit).length
    if n = 0 then none else
    match r.drop n with
    | c :: _ => if c = 'h' || c = 'l' then some (n + 2) else none
    | [] => none
  | _ => none

/-- Matcher for the literal `\r\n`. -/
def mCRLF : List Char → Option Nat
  | '\r' :: '\n' :: _ => some 2
  | _ => none

/-- Matcher for the literal `\r`. -/
def mCR : List Char → Option Nat
  | '\r' :: _ => some 1
  | _ => none

/-- Matcher for backspace. -/
def mBS : List Char → Option Nat
  | '\x08' :: _ => some 1
  | _ => none

/-- Matcher for bell. -/
def mBell : List Char → Option Nat
  | '\x07' :: _ => some 1
  | _ => none

/-- Matcher for `\x1b(?!\[)` (escape not followed by an open bracket). -/
def mEscSolo : List Char → Option Nat
  | '\x1b' :: '[' :: _ => none
  | '\x1b' :: _ => some 1
  | _ => none

/-- Matcher for `\n{3,}` (three or more consecutive newlines). -/
def mNL3 (l : List Char) : Option Nat :=
  match l with
  | '\n' :: _ =>
    let n := (l.takeWhile (fun c => c = '\n')).length
    if 3 ≤ n then some n else none
  | _ => none

/- ## The Output Cleaner stages (src/utils/output.ts) -/

/-- `cleanOutput`: strip ANSI/control sequences, normalize carriage returns,
drop backspace/bell, collapse 3+ newlines, right-trim each line, trim. -/
def cleanOutputL (l : List Char) : List Char :=
  let r := jsReplaceAll mSGR [] l
  let r := jsReplaceAll mCursor [] r
  let r := jsReplaceAll mOSC [] r
  let r := jsReplaceAll mCharset [] r
  let r := jsReplaceAll mKeypad [] r
  let r := jsReplaceAll mCSI [] r
  let r := jsReplaceAll mBracketPriv [] r
  let r := jsReplaceAll mPriv [] r
  let r := jsReplaceAll mCRLF ['\n'] r
  let r := jsReplaceAll mCR ['\n'] r
  let r := jsReplaceAll mBS [] r
  let r := jsReplaceAll mBell [] r
  let r := jsReplaceAll mEscSolo [] r
  let r := jsReplaceAll mNL3 ['\n', '\n'] r
  let r := joinNL ((splitNL r).map trimEndL)
  jsTrimL r

def cleanOutput (s : String) : String := String.mk (cleanOutputL s.data)

/-- The three sentinel markers handed to `cleanMarkers`. -/
structure Markers where
  startMarker : String
  endMarker : String
  exitMarker : String
deriving DecidableEq, Repr

/-- Test for the regex `^echo\s+['"].*===` against a trimmed line. -/
def echoMarkerLine (t : List Char) : Bool :=
  match t with
  | 'e' :: 'c' :: 'h' :: 'o' :: r => wsPlusQuote r
  | _ => false
where
  /-- `\s+` then a quote then `.*===`. -/
  wsPlusQuote : List Char → Bool
    | [] => false
    | c :: r => jsSpace c && quoteThen r
  /-- Remaining `\s*` then a quote then `.*===`. -/
  quoteThen : List Char → Bool
    | [] => false
    | c :: r =>
      if c = '\'' || c = '"' then scanPat "===".data r
      else jsSpace c && quoteThen r

/-- Keep predicate of the `cleanMarkers` line filter. -/
def markerKeep (m : Markers) (line : List Char) : Bool :=
  let t := jsTrimL line
  !(containsSub m.startMarker.data t || containsSub m.endMarker.data t ||
    containsSub m.exitMarker.data t || echoMarkerLine t)

/-- `cleanMarkers`: drop lines containing any sentinel marker and lines that
are themselves the marker-echoing command. -/
def cleanMarkers (s : String) (m : Markers) : String :=
  String.mk (joinNL ((splitNL s.data).filter (markerKeep m)))

/-- The stateful filter of `cleanCommandEcho`: drop blank lines always, and
drop the first remaining line containing the command's first word. -/
def echoFilter (firstWord : List Char) : Bool → List (List Char) → List (List Char)
  | _, [] => []
  | skipped, line :: ls =>
    let t := jsTrimL line
    if t.isEmpty then echoFilter firstWord skipped ls
    else if !skipped && !firstWord.isEmpty && containsSub firstWord t then
      echoFilter firstWord true ls
    else line :: echoFilter firstWord skipped ls

/-- `cleanCommandEcho`: remove the echoed command line (first line containing
the command's first word) and all blank lines. -/
def cleanCommandEcho (s command : String) : String :=
  let firstWord := command.data.takeWhile (fun c => c ≠ ' ')
  String.mk (joinNL (echoFilter firstWord false (splitNL s.data)))

/-- Test for `^\(.+\)\s*[@$#]`. -/
def pParenWs (t : List Char) : Bool :=
  match t with
  | '(' :: r => scanForPos ')' (wsThen (fun c => c = '@' || c = '$' || c = '#')) r
  | _ => false

/-- Test for `^\(.+\)[@$#]`. -/
def pParenImm (t : List Char) : Bool :=
  match t with
  | '(' :: r =>
    scanForPos ')'
      (fun l => match l with
        | c :: _ => c = '@' || c = '$' || c = '#'
        | [] => false) r
  | _ => false

/-- Test for `^\[.+\][@$#]`. -/
def pBrackImm (t : List Char) : Bool :=
  match t with
  | '[' :: r =>
    scanForPos ']'
      (fun l => match l with
        | c :: _ => c = '@' || c = '$' || c = '#'
        | [] => false) r
  | _ => false

/-- Test for `^[$#>]\s*$`. -/
def pSolo (t : List Char) : Bool :=
  match t with
  | c :: r => (c = '$' || c = '#' || c = '>') && allSpace r
  | [] => false

/-- Test for `^c\s*$` for a fixed head character (used for `❯`, `~`, `%`). -/
def pHeadWs (h : Char) (t : List Char) : Bool :=
  match t with
  | c :: r => c = h && allSpace r
  | [] => false

/-- Strip one optional occurrence of `c` at the head (the regex `c?`). -/
def stripOpt (c : Char) (l : List Char) : List Char :=
  match l with
  | x :: r => if x = c then r else l
  | [] => l

/-- Test for `^user@.*:\~?\$?\s*$`. -/
def pUserHome (t : List Char) : Bool :=
  match t with
  | 'u' :: 's' :: 'e' :: 'r' :: '@' :: r =>
    scanFor ':' (fun l => allSpace (stripOpt '$' (stripOpt '~' l))) r
  | _ => false

/-- Test for `^user@.*:\S+\$?\s*$`. -/
def pUserPath (t : List Char) : Bool :=
  match t with
  | 'u' :: 's' :: 'e' :: 'r' :: '@' :: r =>
    scanFor ':'
      (fun l =>
        let u := dropTrailingWs l
        !u.isEmpty && u.all (fun c => !jsSpace c)) r
  | _ => false

/-- Test for `^\(.*\).*@.*:.*\$echo`. -/
def pParenEcho (t : List Char) : Bool :=
  match t with
  | '(' :: r => scanFor ')' (scanFor '@' (scanFor ':' (scanPat "$echo".data))) r
  | _ => false

/-- Test for `^.*@.*:.*\$echo`. -/
def pAtEcho (t : List Char) : Bool :=
  scanFor '@' (scanFor ':' (scanPat "$echo".data)) t

/-- Keep predicate of the `cleanPrompt` line filter. -/
def promptKeep (line : List Char) : Bool :=
  let t := jsTrimL line
  !(pParenWs t || pParenImm t || pBrackImm t || pSolo t ||
    pHeadWs '❯' t || pHeadWs '~' t || pHeadWs '%' t ||
    pUserHome t || pUserPath t || pParenEcho t || pAtEcho t ||
    containsSub "echo'===".data t || containsSub "echo \"===".data t)

/-- `cleanPrompt`: drop lines matching heuristic shell-prompt shapes. -/
def cleanPrompt (s : String) : String :=
  String.mk (joinNL ((splitNL s.data).filter promptKeep))

/- ## Error taxonomy (src/utils/errors.ts) -/

inductive ErrorCode where
  | SESSION_NOT_FOUND
  | SESSION_ALREADY_EXISTS
  | SESSION_BUSY
  | SESSION_CLOSED
  | MAX_SESSIONS_REACHED
  | SESSION_CREATE_FAILED
  | COMMAND_TIMEOUT
  | COMMAND_FAILED
  | COMMAND_EMPTY
  | PROCESS_NOT_FOUND
deriving DecidableEq, Repr

structure TerminalError where
  code : ErrorCode
  message : String
deriving DecidableEq, Repr

namespace Errors

def sessionBusy (sessionId : String) : TerminalError :=
  ⟨.SESSION_BUSY, "Session is busy: " ++ sessionId⟩

def sessionClosed (sessionId : String) : TerminalError :=
  ⟨.SESSION_CLOSED, "Session is closed: " ++ sessionId⟩

def sessionAlreadyExists (sessionId : String) : TerminalError :=
  ⟨.SESSION_ALREADY_EXISTS, "Session already exists: " ++ sessionId⟩

def maxSessionsReached (maxSessions : Nat) : TerminalError :=
  ⟨.MAX_SESSIONS_REACHED, "Maximum number of sessions reached: " ++ toString maxSessions⟩

def sessionCreateFailed (reason : String) : TerminalError :=
  ⟨.SESSION_CREATE_FAILED, "Failed to create session: " ++ reason⟩

def commandEmpty : TerminalError :=
  ⟨.COMMAND_EMPTY, "Command cannot be empty"⟩

end Errors

/- ## Association-list maps (JS `Map` with string keys) -/

/-- Lookup in a keyed list, first match (JS `Map` keys are unique). -/
def alookup {α : Type} : List (String × α) → String → Option α
  | [], _ => none
  | e :: rest, k => if e.1 = k then some e.2 else alookup rest k

/-- JS `Map.set`: replace the entry in place, or append a new one. -/
def aset {α : Type} : List (String × α) → String → α → List (String × α)
  | [], k, v => [(k, v)]
  | e :: rest, k, v => if e.1 = k then (k, v) :: rest else e :: aset rest k v

/-- JS `Map.delete`: remove the (unique) entry with this key. -/
def aerase {α : Type} : List (String × α) → String → List (String × α)
  | [], _ => []
  | e :: rest, k => if e.1 = k then rest else e :: aerase rest k

/- ## Session store and command protocol (src/session/manager.ts) -/

inductive SessionStatus where
  | initializing
  | ready
  | busy
  | errored
  | closed
deriving DecidableEq, Repr

/-- A terminal session.  The pty handle, backend reference and environment
snapshot of the source are external handles with no bearing on the claims and
are not represented; timestamps are abstract `Nat` ticks. -/
structure Session where
  id : String
  name : String
  outputBuffer : String
  maxBufferSize : Nat
  status : SessionStatus
  lastCommand : String
  createdAt : Nat
  lastActivityAt : Nat
  cwd : String
deriving DecidableEq, Repr

/-- `SessionManagerConfig`, all fields required (merged with defaults).  The
`markerPrefix` field of the source is never read by any modelled operation
and is omitted. -/
structure SessionManagerConfig where
  maxSessions : Nat
  defaultTimeout : Nat
  sessionExpiry : Nat
  maxBufferSize : Nat
deriving DecidableEq, Repr

def DEFAULT_CONFIG : SessionManagerConfig :=
  { maxSessions := 10, defaultTimeout := 30000,
    sessionExpiry := 3600000, maxBufferSize := 1048576 }

structure SessionOptions where
  id : Option String := none
  cwd : Option String := none
  shell : Option String := none
  name : Option String := none
deriving DecidableEq, Repr

/-- The session manager's mutable state: the session map and the merged
configuration. -/
structure ManagerState where
  sessions : List (String × Session)
  config : SessionManagerConfig
deriving DecidableEq, Repr

structure CommandContext where
  sessionId : Option String := none
  command : String
  timeout : Option Nat := none
deriving DecidableEq, Repr

structure CommandResult where
  sessionId : String
  command : String
  output : String
  exitCode : Option Nat
  success : Bool
  duration : Nat
  timedOut : Bool
  error : Option String := none
deriving DecidableEq, Repr

/-- Environment oracle for `createSession`: the generated uuid, whether the
backend's `createPty` succeeds, its failure message, backend defaults, and
the clock. -/
structure CreateEnv where
  genId : String
  ptyOk : Bool
  ptyErrMsg : String := ""
  defaultCwd : String := "/"
  now : Nat := 0
deriving DecidableEq, Repr

/-- Environment oracle for one `executeCommand` call: the clock tick used for
activity timestamps, the millisecond timestamp the sentinel markers derive
from, whether the end marker was observed in the capture buffer before the
timeout, the capture buffer's contents when the wait ends, the measured
duration, and the creation oracle for the get-or-create path. -/
structure ExecEnv where
  now : Nat := 0
  timestamp : Nat
  foundEnd : Bool
  buffer : String
  duration : Nat := 0
  create : CreateEnv := { genId := "uuid", ptyOk := true }
deriving DecidableEq, Repr

/-- The session object `createSession` builds: `initializing` at first, set
to `ready` after the settle delay and before it is stored. -/
def builtSession (st : ManagerState) (opts : SessionOptions) (env : CreateEnv) :
    Session :=
  let sessionId := jsOr opts.id env.genId
  { id := sessionId,
    name := jsOr opts.name ("session-" ++ String.mk (sessionId.data.take 8)),
    outputBuffer := "",
    maxBufferSize := st.config.maxBufferSize,
    status := .ready,
    lastCommand := "",
    createdAt := env.now,
    lastActivityAt := env.now,
    cwd := jsOr opts.cwd env.defaultCwd }

/-- `createSession`: capacity check, id collision check, pty allocation, then
the session is built, marked `ready` after the settle delay, and stored.  The
third component records whether `createPty` was invoked. -/
def createSession (st : ManagerState) (opts : SessionOptions) (env : CreateEnv) :
    Except TerminalError Session × ManagerState × Bool :=
  if st.config.maxSessions ≤ st.sessions.length then
    (.error (Errors.maxSessionsReached st.config.maxSessions), st, false)
  else
    let sessionId := jsOr opts.id env.genId
    if (alookup st.sessions sessionId).isSome then
      (.error (Errors.sessionAlreadyExists sessionId), st, false)
    else if env.ptyOk then
      let session := builtSession st opts env
      (.ok session, { st with sessions := aset st.sessions sessionId session }, true)
    else
      (.error (Errors.sessionCreateFailed env.ptyErrMsg), st, true)

/-- `getOrCreateSession`: return the stored session, else create one under
this id.  Also returns the map key under which the session lives. -/
def getOrCreateSession (st : ManagerState) (id : String) (opts : SessionOptions)
    (env : CreateEnv) : Except TerminalError (String × Session) × ManagerState :=
  match alookup st.sessions id with
  | some s => (.ok (id, s), st)
  | none =>
    match createSession st { opts with id := some id } env with
    | (.ok s, st', _) => (.ok (s.id, s), st')
    | (.error e, st', _) => (.error e, st')

/-- `closeSession`: idempotent; kill errors are swallowed, the session is
removed from the store. -/
def closeSession (st : ManagerState) (id : String) : ManagerState :=
  match alookup st.sessions id with
  | none => st
  | some _ => { st with sessions := aerase st.sessions id }

def markerStart (ts : Nat) : String := "===START" ++ toString ts ++ "==="

def markerEnd (ts : Nat) : String := "===END" ++ toString ts ++ "==="

def markerExit (ts : Nat) : String := "===EXIT" ++ toString ts ++ "==="

/-- First match of the regex `exitMarker(\d+)`: the remainder after the first
occurrence of the marker that is immediately followed by a digit. -/
def findExit (pat : List Char) : List Char → Option (List Char)
  | [] => none
  | c :: r =>
    let here := (c :: r).drop pat.length
    if isPre pat (c :: r) &&
       (match here with
        | d :: _ => isDigit d
        | [] => false) then some here
    else findExit pat r

/-- Exit code extraction: digits matched immediately after the exit marker. -/
def matchExitCode (s : String) (exitMarker : String) : Option Nat :=
  (findExit exitMarker.data s.data).map (fun r => digitsToNat (r.takeWhile isDigit))

/-- The timeout result of `executeCommand`: no parsing, structured fields. -/
def timeoutResult (session : Session) (ctx : CommandContext)
    (cfg : SessionManagerConfig) (env : ExecEnv) : CommandResult :=
  { sessionId := session.id, command := ctx.command, output := "",
    exitCode := none, success := false, duration := env.duration,
    timedOut := true,
    error := some ("Command timeout after "
      ++ toString (jsOrNat ctx.timeout cfg.defaultTimeout) ++ "ms") }

/-- The fallback result when the marker positions are missing or misordered:
the whole cleaned buffer with assumed success. -/
def fallbackResult (session : Session) (ctx : CommandContext) (env : ExecEnv) :
    CommandResult :=
  { sessionId := session.id, command := ctx.command,
    output := cleanOutput env.buffer, exitCode := some 0, success := true,
    duration := env.duration, timedOut := false }

/-- The parsed result: exit code from the digits after the exit marker
(default 0), output sliced between the last start marker and last end marker
and run through the cleaning pipeline in its fixed order. -/
def parsedResult (session : Session) (ctx : CommandContext) (env : ExecEnv)
    (si ei : Nat) : CommandResult :=
  let sm := markerStart env.timestamp
  let em := markerEnd env.timestamp
  let xm := markerExit env.timestamp
  let exitCode := (matchExitCode env.buffer xm).getD 0
  let raw := jsSubstring env.buffer (si + sm.length) ei
  { sessionId := session.id, command := ctx.command,
    output := cleanPrompt (cleanCommandEcho (cleanMarkers (cleanOutput raw)
      ⟨sm, em, xm⟩) ctx.command),
    exitCode := some exitCode, success := exitCode == 0,
    duration := env.duration, timedOut := false }

/-- The pure result computation of `executeCommand` after the command has
been accepted: the timeout path when the end marker never showed up, else
marker-based parsing of the capture buffer keyed on the last occurrences of
the start and end markers. -/
def runCommand (session : Session) (ctx : CommandContext)
    (cfg : SessionManagerConfig) (env : ExecEnv) : CommandResult :=
  if env.foundEnd then
    match lastIndexOf? env.buffer.data (markerStart env.timestamp).data,
          lastIndexOf? env.buffer.data (markerEnd env.timestamp).data with
    | some si, some ei =>
      if si < ei then parsedResult session ctx env si ei
      else fallbackResult session ctx env
    | _, _ => fallbackResult session ctx env
  else timeoutResult session ctx cfg env

/-- The state of the target session when `executeCommand` returns: status
restored to `ready`, command recorded, buffer as the appends left it. -/
def settledSession (session : Session) (ctx : CommandContext) (env : ExecEnv) :
    Session :=
  { session with
    status := .ready,
    lastCommand := ctx.command,
    lastActivityAt := env.now,
    outputBuffer := env.buffer }

/-- `executeCommand`: the Command Protocol.  Empty-command check, session
resolution (created on demand), busy/closed checks, then the protocol runs
and the session is restored to `ready` on both the success and the timeout
path. -/
def executeCommand (st : ManagerState) (ctx : CommandContext) (env : ExecEnv) :
    Except TerminalError CommandResult × ManagerState :=
  if jsTrim ctx.command = "" then
    (.error Errors.commandEmpty, st)
  else
    match getOrCreateSession st (ctx.sessionId.getD "default") {} env.create with
    | (.error e, st') => (.error e, st')
    | (.ok (key, session), st') =>
      if session.status = .busy then
        (.error (Errors.sessionBusy (jsOr ctx.sessionId "default")), st')
      else if session.status = .closed then
        (.error (Errors.sessionClosed (jsOr ctx.sessionId "default")), st')
      else
        (.ok (runCommand session ctx st.config env),
         { st' with sessions := aset st'.sessions key (settledSession session ctx env) })

/-- `handleOutput`: append pty data to the session's capture buffer, trimming
to the last `maxBufferSize` characters on overflow (`slice(-maxBufferSize)`,
which for `-0` keeps the whole string). -/
def handleOutput (session : Session) (data : String) (now : Nat) : Session :=
  let buf := session.outputBuffer ++ data
  let buf := if session.maxBufferSize < buf.length then jsSliceNeg buf session.maxBufferSize else buf
  { session with outputBuffer := buf, lastActivityAt := now }

/- ## Background process poller (src/polling/output-poller.ts) -/

inductive PollingStatus where
  | running
  | paused
  | completed
  | errored
  | stopped
deriving DecidableEq, Repr

/-- A background process record.  Date fields are abstract `Nat` ticks. -/
structure BackgroundProcess where
  id : String
  sessionId : String
  command : String
  status : PollingStatus
  outputBuffer : String
  readPosition : Nat
  exitCode : Option Nat := none
  error : Option String := none
  createdAt : Nat := 0
  lastUpdatedAt : Nat := 0
  interval : Nat := 1000
deriving DecidableEq, Repr

structure PollResult where
  processId : String
  sessionId : String
  output : String
  hasNewContent : Bool
  isComplete : Bool
  exitCode : Option Nat
  status : PollingStatus
  error : Option String
deriving DecidableEq, Repr

structure PollerState where
  processes : List (String × BackgroundProcess)
deriving DecidableEq, Repr

/-- The fresh record allocated by `startProcess`. -/
def newProcess (processId sessionId command : String) (interval now : Nat) :
    BackgroundProcess :=
  { id := processId, sessionId := sessionId, command := command,
    status := .running, outputBuffer := "", readPosition := 0,
    createdAt := now, lastUpdatedAt := now, interval := interval }

/-- `poll` on a resolved process record: incremental mode returns the bytes
appended since the last read, full mode the whole buffer; both advance the
read cursor to the buffer's end. -/
def poll (p : BackgroundProcess) (incremental : Bool) (now : Nat) :
    PollResult × BackgroundProcess :=
  let output := if incremental then jsSliceFrom p.outputBuffer p.readPosition
                else p.outputBuffer
  let hasNewContent := if incremental then 0 < output.length
                       else p.readPosition < p.outputBuffer.length
  let p' := { p with readPosition := p.outputBuffer.length, lastUpdatedAt := now }
  ({ processId := p.id, sessionId := p.sessionId, output := output,
     hasNewContent := hasNewContent,
     isComplete := p.status = .completed || p.status = .errored,
     exitCode := p.exitCode, status := p.status, error := p.error }, p')

/-- `stopProcess`: no-op on an unknown id; otherwise writes an interrupt byte
to the session's pty (no effect on poller state) and marks the record
`stopped` unconditionally. -/
def stopProcess (ps : PollerState) (processId : String) (now : Nat) : PollerState :=
  match alookup ps.processes processId with
  | none => ps
  | some p =>
    { ps with
      processes := aset ps.processes processId
        { p with status := .stopped, lastUpdatedAt := now } }

/-- The capture listener attached by `executeBackgroundCommand`: append, and
on overflow trim `excess` bytes from the head while shifting the read cursor
down by the trimmed amount, clamped at zero. -/
def bgOutputListener (maxBufferSize : Nat) (p : BackgroundProcess)
    (data : String) (now : Nat) : BackgroundProcess :=
  let buf := p.outputBuffer ++ data
  if maxBufferSize < buf.length then
    let excess := buf.length - maxBufferSize
    { p with
      outputBuffer := jsSliceFrom buf excess,
      readPosition := p.readPosition - excess,
      lastUpdatedAt := now }
  else
    { p with outputBuffer := buf, lastUpdatedAt := now }

/-- Completion handling of `executeBackgroundCommand`: the wrapped Command
Protocol's outcome is folded into the record — `completed`/`errored` from a
returned result, `errored` from a thrown error — regardless of the record's
current status. -/
def applyCommandOutcome (p : BackgroundProcess)
    (outcome : Except String CommandResult) (now : Nat) : BackgroundProcess :=
  match outcome with
  | .ok result =>
    { p with
      exitCode := result.exitCode,
      status := if result.success then .completed else .errored,
      error := result.error,
      lastUpdatedAt := now }
  | .error msg =>
    { p with status := .errored, error := some msg, lastUpdatedAt := now }

/- ## Log tailer line parsing (src/polling/log-tailer.ts) -/

/-- A parsed timestamp: either the ISO prefix of the line or the receive
time (`new Date()` at parse time). -/
inductive LogTimestamp where
  | parsed (ts : String)
  | receiveTime
deriving DecidableEq, Repr

structure LogEntry where
  timestamp : LogTimestamp
  content : String
  level : String
deriving DecidableEq, Repr

/-- Consume exactly `n` digits. -/
def takeDigits : Nat → List Char → Option (List Char)
  | 0, l => some l
  | _ + 1, [] => none
  | n + 1, c :: r => if isDigit c then takeDigits n r else none

/-- Consume one expected character. -/
def expectChar (c : Char) : List Char → Option (List Char)
  | [] => none
  | x :: r => if x = c then some r else none

/-- The timezone tail `[+-]\d{2}:?\d{2}` after the sign. -/
def tzTail (l : List Char) : Option (List Char) :=
  match takeDigits 2 l with
  | none => none
  | some r =>
    match r with
    | ':' :: r2 => takeDigits 2 r2
    | _ => takeDigits 2 r

/-- The optional fraction `(?:\.\d+)?` and timezone `(?:Z|[+-]\d{2}:?\d{2})?`
after the seconds. -/
def isoTail (l : List Char) : List Char :=
  let l1 :=
    match l with
    | '.' :: c :: r => if isDigit c then (c :: r).dropWhile isDigit else l
    | _ => l
  match l1 with
  | 'Z' :: r => r
  | c :: r =>
    if c = '+' || c = '-' then
      match tzTail r with
      | some r' => r'
      | none => l1
    else l1
  | [] => l1

/-- Match
`^(\d{4}-\d{2}-\d{2}[T ]\d{2}:\d{2}:\d{2}(?:\.\d+)?(?:Z|[+-]\d{2}:?\d{2})?)\s*(.*)$`,
returning the captured timestamp and content.  The match fails when a
newline survives into the `(.*)` capture. -/
def matchIso (line : List Char) : Option (List Char × List Char) :=
  let step := fun (o : Option (List Char)) (f : List Char → Option (List Char)) =>
    o.bind f
  let afterDate :=
    step (step (step (step (takeDigits 4 line) (expectChar '-')) (takeDigits 2))
      (expectChar '-')) (takeDigits 2)
  let afterSep :=
    afterDate.bind fun l =>
      match l with
      | 'T' :: r => some r
      | ' ' :: r => some r
      | _ => none
  let afterTime :=
    step (step (step (step (afterSep) (takeDigits 2)) (expectChar ':'))
      (takeDigits 2)) (expectChar ':')
  match afterTime.bind (takeDigits 2) with
  | none => none
  | some rest0 =>
    let rest1 := isoTail rest0
    let content := rest1.dropWhile jsSpace
    if content.contains '\n' then none
    else some (line.take (line.length - rest1.length), content)

/-- Match `^\[(\w+)\]\s*(.*)$`, returning the bracketed word and content. -/
def matchBracket (line : List Char) : Option (List Char × List Char) :=
  match line with
  | '[' :: r =>
    let w := r.takeWhile isWordChar
    if w.isEmpty then none
    else
      match r.drop w.length with
      | ']' :: r2 =>
        let content := r2.dropWhile jsSpace
        if content.contains '\n' then none else some (w, content)
      | _ => none
  | _ => none

/-- `detectLogLevel` as written in the source. -/
def detectLogLevel (content : String) : String :=
  let lc := (lowerStr content).data
  if containsSub "error".data lc || containsSub "err".data lc ||
     containsSub "fatal".data lc then "error"
  else if containsSub "warn".data lc || containsSub "warning".data lc then "warn"
  else if containsSub "debug".data lc || containsSub "trace".data lc then "debug"
  else "info"

/-- Severity inference as the specification words it: `error`/`err`/`fatal`,
else `warn`, else `debug`/`trace`, else `info` (case-insensitive search). -/
def detectLogLevelSpec (content : String) : String :=
  let lc := (lowerStr content).data
  if containsSub "error".data lc || containsSub "err".data lc ||
     containsSub "fatal".data lc then "error"
  else if containsSub "warn".data lc then "warn"
  else if containsSub "debug".data lc || containsSub "trace".data lc then "debug"
  else "info"

/-- `parseLogLine`: ISO pattern first, else bracketed level, else the default
entry stamped with receive time. -/
def parseLogLine (line : String) : LogEntry :=
  match matchIso line.data with
  | some (ts, content) =>
    { timestamp := .parsed (String.mk ts), content := String.mk content,
      level := detectLogLevel (String.mk content) }
  | none =>
    match matchBracket line.data with
    | some (w, content) =>
      { timestamp := .receiveTime, content := String.mk content,
        level := lowerStr (String.mk w) }
    | none =>
      { timestamp := .receiveTime, content := line,
        level := detectLogLevel line }

/- ## Helper lemmas: lines, maps, substrings -/

theorem splitNL_ne_nil (l : List Char) : splitNL l ≠ [] := by
  induction l with
  | nil => simp [splitNL]
  | cons c r ih =>
    simp only [splitNL]
    by_cases h : c = '\n'
    · simp [h]
    · simp only [h, if_false]
      cases hs : splitNL r with
      | nil => simp
      | cons x xs => simp

theorem noNL_splitNL (l : List Char) : ∀ x ∈ splitNL l, '\n' ∉ x := by
  induction l with
  | nil =>
    intro x hx
    simp [splitNL] at hx
    simp [hx]
  | cons c r ih =>
    intro x hx
    simp only [splitNL] at hx
    by_cases h : c = '\n'
    · simp only [h, if_true] at hx
      rcases List.mem_cons.mp hx with h1 | h2
      · simp [h1]
      · exact ih x h2
    · simp only [h, if_false] at hx
      cases hs : splitNL r with
      | nil => exact absurd hs (splitNL_ne_nil r)
      | cons y ys =>
        rw [hs] at hx
        rcases List.mem_cons.mp hx with h1 | h2
        · subst h1
          intro hmem
          rcases List.mem_cons.mp hmem with h3 | h4
          · exact h h3.symm
          · exact ih y (hs ▸ List.mem_cons_self y ys) h4
        · exact ih x (hs ▸ List.mem_cons_of_mem y h2)

theorem splitNL_noNL (x : List Char) (h : '\n' ∉ x) : splitNL x = [x] := by
  induction x with
  | nil => rfl
  | cons c r ih =>
    have hc : c ≠ '\n' := fun hh => h (hh ▸ List.mem_cons_self c r)
    have hr : '\n' ∉ r := fun hh => h (List.mem_cons_of_mem c hh)
    simp only [splitNL, hc, if_false, ih hr]

theorem splitNL_append (x s : List Char) (h : '\n' ∉ x) :
    splitNL (x ++ '\n' :: s) = x :: splitNL s := by
  induction x with
  | nil => simp [splitNL]
  | cons c r ih =>
    have hc : c ≠ '\n' := fun hh => h (hh ▸ List.mem_cons_self c r)
    have hr : '\n' ∉ r := fun hh => h (List.mem_cons_of_mem c hh)
    show splitNL (c :: (r ++ '\n' :: s)) = (c :: r) :: splitNL s
    rw [splitNL, if_neg hc, ih hr]

theorem splitNL_joinNL (L : List (List Char)) (hne : L ≠ [])
    (h : ∀ x ∈ L, '\n' ∉ x) : splitNL (joinNL L) = L := by
  induction L with
  | nil => exact absurd rfl hne
  | cons x xs ih =>
    cases xs with
    | nil =>
      simp only [joinNL]
      exact splitNL_noNL x (h x (List.mem_cons_self x []))
    | cons y ys =>
      have hx : '\n' ∉ x := h x (List.mem_cons_self x (y :: ys))
      have hrest : ∀ z ∈ y :: ys, '\n' ∉ z := fun z hz =>
        h z (List.mem_cons_of_mem x hz)
      simp only [joinNL]
      rw [splitNL_append x _ hx, ih (by simp) hrest]

theorem filter_keep {α : Type} (p : α → Bool) (l : List α) :
    (l.filter p).filter p = l.filter p :=
  List.filter_eq_self.mpr (fun _ ha => List.of_mem_filter ha)

/-- Idempotence of any split-filter-join line transform. -/
theorem filterJoin_idem (p : List Char → Bool) (s : List Char) :
    joinNL ((splitNL (joinNL ((splitNL s).filter p))).filter p)
      = joinNL ((splitNL s).filter p) := by
  cases hL : (splitNL s).filter p with
  | nil =>
    by_cases hp : p [] = true
    · simp [joinNL, splitNL, hp, List.filter]
    · simp only [Bool.not_eq_true] at hp
      simp [joinNL, splitNL, hp, List.filter]
  | cons x xs =>
    have hne : (splitNL s).filter p ≠ [] := by rw [hL]; simp
    have hnl : ∀ y ∈ (splitNL s).filter p, '\n' ∉ y := fun y hy =>
      noNL_splitNL s y (List.mem_of_mem_filter hy)
    rw [← hL, splitNL_joinNL _ hne hnl, filter_keep]

theorem echoFilter_sublist (fw : List Char) (sk : Bool) (ls : List (List Char)) :
    List.Sublist (echoFilter fw sk ls) ls := by
  induction ls generalizing sk with
  | nil => simp [echoFilter]
  | cons l ls ih =>
    simp only [echoFilter]
    by_cases h1 : (jsTrimL l).isEmpty = true
    · simp only [h1, if_true]
      exact (ih sk).cons l
    · simp only [h1, if_false]
      by_cases h2 : (!sk && !fw.isEmpty && containsSub fw (jsTrimL l)) = true
      · simp only [h2, if_true]
        exact (ih true).cons l
      · simp only [h2, if_false]
        exact (ih sk).cons₂ l

/- ## C8: idempotence of the cleaner stages -/

/-- C8 (counterexample): the claim that every Output Cleaner stage is
idempotent in isolation fails — `cleanCommandEcho` removes one echo line per
application, so a second application on `"foo1\nfoo2"` with command `"foo"`
removes a further line. -/
theorem cleanCommandEcho_not_idempotent :
    ¬ (cleanCommandEcho (cleanCommandEcho "foo1\nfoo2" "foo") "foo"
        = cleanCommandEcho "foo1\nfoo2" "foo") := by decide

/-- C8 (amended): `cleanMarkers` and `cleanPrompt` are idempotent in
isolation for every input; `cleanOutput` and `cleanCommandEcho` are not,
witnessed by the private-mode residue `"?12?34hh"` and by the echo filter on
`"foo1\nfoo2"` with command `"foo"`. -/
theorem cleaner_stage_idempotence :
    (∀ (s : String) (m : Markers),
        cleanMarkers (cleanMarkers s m) m = cleanMarkers s m)
    ∧ (∀ s : String, cleanPrompt (cleanPrompt s) = cleanPrompt s)
    ∧ ¬ (cleanOutput (cleanOutput "?12?34hh") = cleanOutput "?12?34hh")
    ∧ ¬ (cleanCommandEcho (cleanCommandEcho "foo1\nfoo2" "foo") "foo"
          = cleanCommandEcho "foo1\nfoo2" "foo") := by
  refine ⟨?_, ?_, by decide, by decide⟩
  · intro s m
    exact congrArg String.mk (filterJoin_idem (markerKeep m) s.data)
  · intro s
    exact congrArg String.mk (filterJoin_idem promptKeep s.data)

/- ## C10: the later stages are pure line filters -/

/-- C10: `cleanMarkers`, `cleanCommandEcho` and `cleanPrompt` split the input
into lines, keep a subsequence of those lines unchanged, and join them back;
no retained line is rewritten and no text is introduced. -/
theorem cleaners_are_line_filters :
    ∀ (s command : String) (m : Markers),
      List.Sublist ((splitNL s.data).filter (markerKeep m)) (splitNL s.data)
      ∧ cleanMarkers s m
          = String.mk (joinNL ((splitNL s.data).filter (markerKeep m)))
      ∧ List.Sublist (echoFilter (command.data.takeWhile (fun c => c ≠ ' ')) false
          (splitNL s.data)) (splitNL s.data)
      ∧ cleanCommandEcho s command
          = String.mk (joinNL (echoFilter (command.data.takeWhile (fun c => c ≠ ' '))
              false (splitNL s.data)))
      ∧ List.Sublist ((splitNL s.data).filter promptKeep) (splitNL s.data)
      ∧ cleanPrompt s = String.mk (joinNL ((splitNL s.data).filter promptKeep)) := by
  intro s command m
  exact ⟨List.filter_sublist _, rfl, echoFilter_sublist _ _ _, rfl,
    List.filter_sublist _, rfl⟩

/- ## C9: log line parsing -/

theorem isPre_of_isPre_append (p q l : List Char)
    (h : isPre (p ++ q) l = true) : isPre p l = true := by
  induction p generalizing l with
  | nil => rfl
  | cons a as ih =>
    cases l with
    | nil => simp [isPre] at h
    | cons b bs =>
      simp only [List.cons_append, isPre, Bool.and_eq_true] at h ⊢
      exact ⟨h.1, ih bs h.2⟩

theorem containsSub_mono (p q l : List Char)
    (h : containsSub (p ++ q) l = true) : containsSub p l = true := by
  induction l with
  | nil =>
    simp only [containsSub] at h ⊢
    exact isPre_of_isPre_append p q [] h
  | cons c r ih =>
    simp only [containsSub, Bool.or_eq_true] at h ⊢
    rcases h with h | h
    · exact Or.inl (isPre_of_isPre_append p q (c :: r) h)
    · exact Or.inr (ih h)

/-- The source's level detection agrees with the specification's keyword
rule: the extra `includes('warning')` disjunct of the source is redundant
because any occurrence of `warning` contains `warn`. -/
theorem detectLogLevel_eq_spec (s : String) :
    detectLogLevel s = detectLogLevelSpec s := by
  unfold detectLogLevel detectLogLevelSpec
  cases hw : containsSub "warn".data (lowerStr s).data
  · have hwg : containsSub "warning".data (lowerStr s).data = false := by
      cases hg : containsSub "warning".data (lowerStr s).data
      · rfl
      · have happ : "warn".data ++ "ing".data = "warning".data := by decide
        rw [← happ] at hg
        exact absurd (containsSub_mono "warn".data "ing".data _ hg) (by simp [hw])
    simp [hw, hwg]
  · simp [hw]

/-- C9: `parseLogLine` tries the ISO-8601-prefixed pattern first (timestamp
and remainder as content), else the bracketed `[LEVEL]` pattern (bracketed
word lower-cased as the level, receive time as timestamp), else stamps the
whole line with the receive time; implicit severity follows the keyword rule
`error`/`err`/`fatal` then `warn` then `debug`/`trace` else `info`. -/
theorem parseLogLine_spec :
    ∀ (line : String) (ts c w : List Char),
      (matchIso line.data = some (ts, c) →
        parseLogLine line
          = { timestamp := .parsed (String.mk ts), content := String.mk c,
              level := detectLogLevelSpec (String.mk c) })
      ∧ (matchIso line.data = none → matchBracket line.data = some (w, c) →
        parseLogLine line
          = { timestamp := .receiveTime, content := String.mk c,
              level := lowerStr (String.mk w) })
      ∧ (matchIso line.data = none → matchBracket line.data = none →
        parseLogLine line
          = { timestamp := .receiveTime, content := line,
              level := detectLogLevelSpec line }) := by
  intro line ts c w
  refine ⟨?_, ?_, ?_⟩
  · intro hiso
    simp [parseLogLine, hiso, detectLogLevel_eq_spec]
  · intro hiso hbr
    simp [parseLogLine, hiso, hbr]
  · intro hiso hbr
    simp [parseLogLine, hiso, hbr, detectLogLevel_eq_spec]

/-- C9 witness: a concrete ISO-prefixed line parsed through the theorem. -/
theorem parseLogLine_spec_witness :
    parseLogLine "2024-01-02 03:04:05 oops FATAL"
      = { timestamp := .parsed (String.mk "2024-01-02 03:04:05".data),
          content := String.mk "oops FATAL".data,
          level := detectLogLevelSpec (String.mk "oops FATAL".data) } :=
  (parseLogLine_spec "2024-01-02 03:04:05 oops FATAL"
    "2024-01-02 03:04:05".data "oops FATAL".data []).1 (by decide)

/- ## Map lemmas -/

theorem alookup_aset_self {α : Type} (m : List (String × α)) (k : String) (v : α) :
    alookup (aset m k v) k = some v := by
  induction m with
  | nil => simp [aset, alookup]
  | cons e rest ih =>
    by_cases h : e.1 = k
    · simp [aset, h, alookup]
    · simp [aset, h, alookup, ih]

theorem length_aset_absent {α : Type} (m : List (String × α)) (k : String) (v : α)
    (h : alookup m k = none) : (aset m k v).length = m.length + 1 := by
  induction m with
  | nil => simp [aset]
  | cons e rest ih =>
    simp only [alookup] at h
    by_cases he : e.1 = k
    · simp [he] at h
    · simp only [aset, he, if_false, List.length_cons]
      rw [ih (by simpa [he] using h)]

theorem length_aerase_present {α : Type} (m : List (String × α)) (k : String)
    (v : α) (h : alookup m k = some v) : m.length = (aerase m k).length + 1 := by
  induction m with
  | nil => simp [alookup] at h
  | cons e rest ih =>
    by_cases he : e.1 = k
    · simp [aerase, he]
    · simp only [alookup, he, if_false] at h
      simp only [aerase, he, if_false, List.length_cons]
      rw [ih h]

/- ## C4: buffer bounds and read cursor -/

/-- Fixture: a plain ready session. -/
def sampleSession : Session :=
  { id := "s1", name := "session-s1", outputBuffer := "", maxBufferSize := 1024,
    status := .ready, lastCommand := "", createdAt := 0, lastActivityAt := 0,
    cwd := "/" }

/-- C4 (counterexample): with a configured `maxBufferSize` of `0`,
`handleOutput` appends without trimming — `slice(-0)` is `slice(0)` and
keeps the whole buffer, so the buffer exceeds the configured maximum. -/
theorem handleOutput_zero_max_counterexample :
    ¬ ((handleOutput { sampleSession with maxBufferSize := 0 } "a" 0).outputBuffer.length
        ≤ ({ sampleSession with maxBufferSize := 0 } : Session).maxBufferSize) := by
  decide

/-- C4 (amended): the session capture buffer stays within `maxBufferSize`
after any append whenever the configured maximum is positive (for zero the
`slice(-0)` quirk keeps everything); the background listener preserves
`readPosition ≤ outputBuffer.length` for every configured maximum; `poll`
re-establishes it in both incremental and full mode. -/
theorem buffer_invariants :
    (∀ (s : Session) (data : String) (now : Nat), 1 ≤ s.maxBufferSize →
        (handleOutput s data now).outputBuffer.length ≤ s.maxBufferSize)
    ∧ (∀ (maxB : Nat) (p : BackgroundProcess) (data : String) (now : Nat),
        p.readPosition ≤ p.outputBuffer.length →
        (bgOutputListener maxB p data now).readPosition
          ≤ (bgOutputListener maxB p data now).outputBuffer.length)
    ∧ (∀ (p : BackgroundProcess) (inc : Bool) (now : Nat),
        (poll p inc now).2.readPosition ≤ (poll p inc now).2.outputBuffer.length) := by
  refine ⟨?_, ?_, ?_⟩
  · intro s data now hpos
    unfold handleOutput
    by_cases h : s.maxBufferSize < (s.outputBuffer ++ data).length
    · simp only [h, if_true, jsSliceNeg, Nat.pos_iff_ne_zero.mp hpos, if_false]
      show ((s.outputBuffer ++ data).data.drop
        ((s.outputBuffer ++ data).data.length - s.maxBufferSize)).length ≤ _
      rw [List.length_drop]
      omega
    · simp only [h, if_false]
      omega
  · intro maxB p data now hinv
    unfold bgOutputListener
    by_cases h : maxB < (p.outputBuffer ++ data).length
    · simp only [h, if_true]
      show p.readPosition - ((p.outputBuffer ++ data).length - maxB)
        ≤ ((p.outputBuffer ++ data).data.drop ((p.outputBuffer ++ data).length - maxB)).length
      rw [List.length_drop]
      have hlen : (p.outputBuffer ++ data).length
          = p.outputBuffer.length + data.length := by
        show (p.outputBuffer.data ++ data.data).length = _
        rw [List.length_append]
        rfl
      rw [show (p.outputBuffer ++ data).data.length = (p.outputBuffer ++ data).length
        from rfl]
      omega
    · simp only [h, if_false]
      have hlen : (p.outputBuffer ++ data).length
          = p.outputBuffer.length + data.length := by
        show (p.outputBuffer.data ++ data.data).length = _
        rw [List.length_append]
        rfl
      omega
  · intro p inc now
    unfold poll
    exact Nat.le_refl _

/-- C4 witness: the amended invariants applied at concrete inputs. -/
theorem buffer_invariants_witness :
    (handleOutput sampleSession "abc" 5).outputBuffer.length
        ≤ sampleSession.maxBufferSize
    ∧ (bgOutputListener 4 (newProcess "p1" "s1" "sleep 99" 1000 0) "hello!" 1).readPosition
        ≤ (bgOutputListener 4 (newProcess "p1" "s1" "sleep 99" 1000 0) "hello!" 1).outputBuffer.length :=
  ⟨buffer_invariants.1 sampleSession "abc" 5 (by decide),
   buffer_invariants.2.1 4 (newProcess "p1" "s1" "sleep 99" 1000 0) "hello!" 1 (by decide)⟩

/- ## C5: empty command -/

/-- C5: an empty or whitespace-only command fails with `CommandEmpty` before
any session is resolved or mutated — the manager state is returned
unchanged. -/
theorem executeCommand_empty_command :
    ∀ (st : ManagerState) (ctx : CommandContext) (env : ExecEnv),
      jsTrim ctx.command = "" →
      executeCommand st ctx env = (.error Errors.commandEmpty, st) := by
  intro st ctx env h
  simp [executeCommand, h]

/-- C5 witness: a whitespace-only command on a live store. -/
theorem executeCommand_empty_command_witness :
    executeCommand { sessions := [("s1", sampleSession)], config := DEFAULT_CONFIG }
        { sessionId := some "s1", command := " \t " }
        { timestamp := 7, foundEnd := true, buffer := "junk" }
      = (.error Errors.commandEmpty,
         { sessions := [("s1", sampleSession)], config := DEFAULT_CONFIG }) :=
  executeCommand_empty_command _ _ _ (by decide)

/- ## C6: session capacity -/

theorem closeSession_config (st : ManagerState) (id : String) :
    (closeSession st id).config = st.config := by
  unfold closeSession
  cases alookup st.sessions id <;> rfl

theorem createSession_ok_state (st : ManagerState) (opts : SessionOptions)
    (env : CreateEnv)
    (hcap : st.sessions.length < st.config.maxSessions)
    (hfresh : alookup st.sessions (jsOr opts.id env.genId) = none)
    (hpty : env.ptyOk = true) :
    ∃ s : Session, createSession st opts env
      = (.ok s, { st with
          sessions := aset st.sessions (jsOr opts.id env.genId) s }, true) := by
  refine ⟨builtSession st opts env, ?_⟩
  unfold createSession
  rw [if_neg (by omega)]
  simp only [hfresh, Option.isSome_none, Bool.false_eq_true, if_false, hpty, if_true]

/-- C6: `createSession` fails with `MaxSessionsReached` exactly when the
store is at (or beyond) the configured capacity, and on that path neither
allocates a pty nor mutates the store; from a store at capacity, closing one
session permits exactly one further creation — the next one fails again. -/
theorem createSession_capacity :
    (∀ (st : ManagerState) (opts : SessionOptions) (env : CreateEnv),
       ((createSession st opts env).1
           = .error (Errors.maxSessionsReached st.config.maxSessions)
         ↔ st.config.maxSessions ≤ st.sessions.length)
       ∧ (st.config.maxSessions ≤ st.sessions.length →
           createSession st opts env
             = (.error (Errors.maxSessionsReached st.config.maxSessions), st, false)))
    ∧ (∀ (st : ManagerState) (closeId : String) (s : Session)
         (opts1 opts2 : SessionOptions) (env1 env2 : CreateEnv),
       st.sessions.length = st.config.maxSessions →
       alookup st.sessions closeId = some s →
       alookup (closeSession st closeId).sessions (jsOr opts1.id env1.genId) = none →
       env1.ptyOk = true →
       (createSession st opts1 env1).1
           = .error (Errors.maxSessionsReached st.config.maxSessions)
       ∧ ∃ s1 st1, createSession (closeSession st closeId) opts1 env1
             = (.ok s1, st1, true)
           ∧ (createSession st1 opts2 env2).1
               = .error (Errors.maxSessionsReached st.config.maxSessions)) := by
  constructor
  · intro st opts env
    constructor
    · constructor
      · intro h
        by_contra hlt
        push_neg at hlt
        unfold createSession at h
        rw [if_neg (by omega)] at h
        by_cases hex : (alookup st.sessions (jsOr opts.id env.genId)).isSome
        · rw [if_pos hex] at h
          exact absurd (congrArg TerminalError.code (Except.error.inj h))
            (by simp [Errors.sessionAlreadyExists, Errors.maxSessionsReached])
        · rw [if_neg hex] at h
          by_cases hp : env.ptyOk = true
          · rw [if_pos hp] at h
            exact absurd h (by simp)
          · rw [if_neg hp] at h
            exact absurd (congrArg TerminalError.code (Except.error.inj h))
              (by simp [Errors.sessionCreateFailed, Errors.maxSessionsReached])
      · intro h
        unfold createSession
        rw [if_pos h]
    · intro h
      unfold createSession
      rw [if_pos h]
  · intro st closeId s opts1 opts2 env1 env2 hful hclose hfresh hpty
    have hcfg : (closeSession st closeId).config = st.config :=
      closeSession_config st closeId
    have hlen : st.sessions.length = (aerase st.sessions closeId).length + 1 :=
      length_aerase_present st.sessions closeId s hclose
    have hcloseSt : closeSession st closeId
        = { st with sessions := aerase st.sessions closeId } := by
      unfold closeSession
      rw [hclose]
    constructor
    · unfold createSession
      rw [if_pos (by omega)]
    · have hcap : (closeSession st closeId).sessions.length
          < (closeSession st closeId).config.maxSessions := by
        rw [hcloseSt]
        simp only []
        omega
      obtain ⟨s1, hs1⟩ :=
        createSession_ok_state (closeSession st closeId) opts1 env1 hcap hfresh hpty
      refine ⟨s1, _, hs1, ?_⟩
      have hlen1 : (aset (closeSession st closeId).sessions
          (jsOr opts1.id env1.genId) s1).length
            = (closeSession st closeId).sessions.length + 1 :=
        length_aset_absent _ _ _ hfresh
      unfold createSession
      rw [if_pos ?hcond]
      case hcond =>
        simp only [hcfg]
        rw [hlen1]
        rw [hcloseSt]
        simp only []
        rw [hcloseSt] at hcfg
        simp only [] at hcfg ⊢
        omega
      simp only [hcfg]

/-- C6 witness: a store at capacity one, exercised through the theorem. -/
theorem createSession_capacity_witness :
    (createSession
        { sessions := [("s1", sampleSession)],
          config := { DEFAULT_CONFIG with maxSessions := 1 } }
        {} { genId := "g1", ptyOk := true }).1
      = .error (Errors.maxSessionsReached 1)
    ∧ ∃ s1 st1,
        createSession
            (closeSession
              { sessions := [("s1", sampleSession)],
                config := { DEFAULT_CONFIG with maxSessions := 1 } } "s1")
            {} { genId := "g1", ptyOk := true }
          = (.ok s1, st1, true)
        ∧ (createSession st1 {} { genId := "g2", ptyOk := true }).1
            = .error (Errors.maxSessionsReached 1) :=
  createSession_capacity.2
    { sessions := [("s1", sampleSession)],
      config := { DEFAULT_CONFIG with maxSessions := 1 } }
    "s1" sampleSession {} {} { genId := "g1", ptyOk := true }
    { genId := "g2", ptyOk := true }
    (by decide) (by decide) (by decide) (by decide)

/- ## C7: background process status transitions -/

/-- Fixture: a completed background process tracked by the poller. -/
def completedProcess : BackgroundProcess :=
  { newProcess "p1" "s1" "make" 1000 0 with status := .completed }

/-- C7 (counterexample): `completed` is not terminal under the code —
`stopProcess` overwrites the status of an already-completed process with
`stopped`. -/
theorem stopProcess_on_completed_counterexample :
    (alookup (PollerState.mk [("p1", completedProcess)]).processes "p1").map
        BackgroundProcess.status = some .completed
    ∧ (alookup (stopProcess (PollerState.mk [("p1", completedProcess)]) "p1" 1).processes
        "p1").map BackgroundProcess.status = some .stopped
    ∧ PollingStatus.stopped ≠ PollingStatus.completed := by decide

/-- C7 (amended): `poll` never changes a process's status; `stopProcess`
sets the status of any tracked process to `stopped` regardless of its
current status (so `completed`/`error` are not terminal against it); the
completion handler sets `completed`/`error` from the wrapped Command
Protocol outcome regardless of the current status (so `stopped` is not
terminal against it).  Out of `running`, the only statuses these operations
produce are `completed`, `error` and `stopped`. -/
theorem poller_status_transitions :
    (∀ (p : BackgroundProcess) (inc : Bool) (now : Nat),
        (poll p inc now).2.status = p.status ∧ (poll p inc now).1.status = p.status)
    ∧ (∀ (ps : PollerState) (id : String) (now : Nat) (p : BackgroundProcess),
        alookup ps.processes id = some p →
        alookup (stopProcess ps id now).processes id
          = some { p with status := .stopped, lastUpdatedAt := now })
    ∧ (∀ (p : BackgroundProcess) (r : CommandResult) (now : Nat),
        (applyCommandOutcome p (.ok r) now).status
          = if r.success then .completed else .errored)
    ∧ (∀ (p : BackgroundProcess) (msg : String) (now : Nat),
        (applyCommandOutcome p (.error msg) now).status = .errored) := by
  refine ⟨?_, ?_, ?_, ?_⟩
  · intro p inc now
    exact ⟨rfl, rfl⟩
  · intro ps id now p h
    unfold stopProcess
    rw [h]
    exact alookup_aset_self _ _ _
  · intro p r now
    rfl
  · intro p msg now
    rfl

/-- C7 witness: the unconditional stop transition at a concrete record. -/
theorem poller_status_transitions_witness :
    alookup (stopProcess (PollerState.mk [("p2", newProcess "p2" "s1" "make" 1000 0)])
        "p2" 3).processes "p2"
      = some { newProcess "p2" "s1" "make" 1000 0 with
          status := .stopped, lastUpdatedAt := 3 } :=
  poller_status_transitions.2.1 (PollerState.mk [("p2", newProcess "p2" "s1" "make" 1000 0)])
    "p2" 3 (newProcess "p2" "s1" "make" 1000 0) (by decide)

/- ## C1, C2, C3: the command protocol -/

deriving instance DecidableEq for Except

/-- Fixtures shared by the command-protocol claims. -/
def mgrReady : ManagerState :=
  { sessions := [("s1", sampleSession)], config := DEFAULT_CONFIG }

def mgrBusy : ManagerState :=
  { sessions := [("s1", { sampleSession with status := .busy })], config := DEFAULT_CONFIG }

def ctxLs : CommandContext := { sessionId := some "s1", command := "ls" }

def envNoEnd : ExecEnv := { timestamp := 7, foundEnd := false, buffer := "x" }

def envEndFound : ExecEnv := { timestamp := 7, foundEnd := true, buffer := "" }

theorem getOrCreate_found (st : ManagerState) (id : String) (opts : SessionOptions)
    (env : CreateEnv) (s : Session) (h : alookup st.sessions id = some s) :
    getOrCreateSession st id opts env = (.ok (id, s), st) := by
  unfold getOrCreateSession
  rw [h]

/-- When the command is non-blank and the resolved session is neither busy
nor closed, `executeCommand` runs the protocol and stores the settled
session back under its key. -/
theorem executeCommand_accepted
    (st : ManagerState) (ctx : CommandContext) (env : ExecEnv) (s : Session)
    (hne : jsTrim ctx.command ≠ "")
    (hlk : alookup st.sessions (ctx.sessionId.getD "default") = some s)
    (hb : s.status ≠ .busy) (hcl : s.status ≠ .closed) :
    executeCommand st ctx env
      = (.ok (runCommand s ctx st.config env),
         { st with sessions := aset st.sessions (ctx.sessionId.getD "default") (settledSession s ctx env) }) := by
  unfold executeCommand
  rw [if_neg hne, getOrCreate_found st _ {} env.create s hlk]
  simp only [if_neg hb, if_neg hcl]

theorem runCommand_sessionId (s : Session) (ctx : CommandContext)
    (cfg : SessionManagerConfig) (env : ExecEnv) :
    (runCommand s ctx cfg env).sessionId = s.id := by
  unfold runCommand
  split
  · split
    · split
      · rfl
      · rfl
    · rfl
  · rfl

/-- C1 (counterexample): a call whose resolved session is `busy` does not
fail with `SessionBusy` when the command is blank — the `CommandEmpty`
check runs first. -/
theorem busy_session_blank_command_counterexample :
    (alookup mgrBusy.sessions "s1").map Session.status = some .busy
    ∧ (executeCommand mgrBusy { sessionId := some "s1", command := " " } envEndFound).1
        ≠ .error (Errors.sessionBusy "s1") := by decide

/-- C1 (amended): provided the command is not blank (a blank command fails
with `CommandEmpty` first), `executeCommand` on a `busy` session fails with
`SessionBusy` and on a `closed` session with `SessionClosed`, both without
mutating the store; and whenever the call returns a result, the target
session is stored with status `ready` — never left `busy`. -/
theorem executeCommand_busy_closed_ready :
    ∀ (st : ManagerState) (ctx : CommandContext) (env : ExecEnv),
      (∀ s : Session,
        jsTrim ctx.command ≠ "" →
        alookup st.sessions (ctx.sessionId.getD "default") = some s →
        ((s.status = .busy →
            executeCommand st ctx env
              = (.error (Errors.sessionBusy (jsOr ctx.sessionId "default")), st))
         ∧ (s.status = .closed →
            executeCommand st ctx env
              = (.error (Errors.sessionClosed (jsOr ctx.sessionId "default")), st))))
      ∧ (∀ (r : CommandResult) (st'' : ManagerState),
          executeCommand st ctx env = (.ok r, st'') →
          ∃ (key : String) (s' : Session),
            alookup st''.sessions key = some s'
            ∧ s'.id = r.sessionId ∧ s'.status = .ready) := by
  intro st ctx env
  constructor
  · intro s hne hlk
    constructor
    · intro hsb
      unfold executeCommand
      rw [if_neg hne, getOrCreate_found st _ {} env.create s hlk]
      simp [hsb]
    · intro hsc
      unfold executeCommand
      rw [if_neg hne, getOrCreate_found st _ {} env.create s hlk]
      simp [hsc]
  · intro r st'' h
    unfold executeCommand at h
    split at h
    · exact absurd (congrArg Prod.fst h) (by simp)
    · split at h
      · exact absurd (congrArg Prod.fst h) (by simp)
      · rename_i key session st' heq
        split at h
        · exact absurd (congrArg Prod.fst h) (by simp)
        · split at h
          · exact absurd (congrArg Prod.fst h) (by simp)
          · have hr : Except.ok (runCommand session ctx st.config env)
                = Except.ok r := congrArg Prod.fst h
            have hst :
                ({ st' with sessions := aset st'.sessions key (settledSession session ctx env) } : ManagerState)
                  = st'' := congrArg Prod.snd h
            refine ⟨key, settledSession session ctx env, ?_, ?_, rfl⟩
            · rw [← hst]
              exact alookup_aset_self _ _ _
            · rw [← Except.ok.inj hr]
              exact (runCommand_sessionId session ctx st.config env).symm

/-- C1 witness: the amended theorem applied at a busy session with a
non-blank command, and at a successful call. -/
theorem executeCommand_busy_closed_ready_witness :
    executeCommand mgrBusy ctxLs envEndFound
      = (.error (Errors.sessionBusy (jsOr ctxLs.sessionId "default")), mgrBusy)
    ∧ ∃ (key : String) (s' : Session),
        alookup (executeCommand mgrReady ctxLs envNoEnd).2.sessions key = some s'
        ∧ s'.id = (runCommand sampleSession ctxLs mgrReady.config envNoEnd).sessionId
        ∧ s'.status = .ready := by
  constructor
  · exact ((executeCommand_busy_closed_ready mgrBusy ctxLs envEndFound).1
      { sampleSession with status := .busy } (by decide) (by decide)).1 rfl
  · have hexec := executeCommand_accepted mgrReady ctxLs envNoEnd sampleSession
      (by decide) (by decide) (by decide) (by decide)
    obtain ⟨key, s', h1, h2, h3⟩ :=
      (executeCommand_busy_closed_ready mgrReady ctxLs envNoEnd).2 _ _ hexec
    rw [hexec]
    exact ⟨key, s', h1, h2, h3⟩

/-- C2: when the end marker never appears before the timeout,
`executeCommand` returns the structured timeout result — empty output, null
exit code, no success, `timedOut` set, the timeout message — without parsing
and without an exception, and the session is stored back `ready`. -/
theorem executeCommand_timeout_path :
    ∀ (st : ManagerState) (ctx : CommandContext) (env : ExecEnv) (s : Session),
      jsTrim ctx.command ≠ "" →
      alookup st.sessions (ctx.sessionId.getD "default") = some s →
      s.status ≠ .busy →
      s.status ≠ .closed →
      env.foundEnd = false →
      executeCommand st ctx env
        = (.ok { sessionId := s.id, command := ctx.command, output := "",
                 exitCode := none, success := false, duration := env.duration,
                 timedOut := true,
                 error := some ("Command timeout after " ++ toString (jsOrNat ctx.timeout st.config.defaultTimeout) ++ "ms") },
           { st with sessions := aset st.sessions (ctx.sessionId.getD "default") (settledSession s ctx env) })
        ∧ (settledSession s ctx env).status = .ready := by
  intro st ctx env s hne hlk hb hcl hfe
  refine ⟨?_, rfl⟩
  rw [executeCommand_accepted st ctx env s hne hlk hb hcl]
  unfold runCommand
  rw [hfe]
  simp only [Bool.false_eq_true, if_false]
  rfl

/-- C2 witness: a concrete timed-out call through the theorem. -/
theorem executeCommand_timeout_path_witness :
    executeCommand mgrReady { sessionId := some "s1", command := "sleep 99" } envNoEnd
      = (.ok { sessionId := "s1", command := "sleep 99", output := "",
               exitCode := none, success := false, duration := 0,
               timedOut := true,
               error := some ("Command timeout after " ++ toString (jsOrNat none DEFAULT_CONFIG.defaultTimeout) ++ "ms") },
         { mgrReady with sessions := aset mgrReady.sessions "s1" (settledSession sampleSession { sessionId := some "s1", command := "sleep 99" } envNoEnd) })
    ∧ (settledSession sampleSession { sessionId := some "s1", command := "sleep 99" } envNoEnd).status = .ready :=
  executeCommand_timeout_path mgrReady
    { sessionId := some "s1", command := "sleep 99" } envNoEnd sampleSession
    (by decide) (by decide) (by decide) (by decide) rfl

/-- C3: once the end marker is found, parsing keys on the LAST occurrence of
the start marker and the LAST occurrence of the end marker; a missing marker
or a start index not strictly before the end index yields the whole cleaned
buffer with exit code 0 and assumed success; otherwise the exit code is the
digit run matched immediately after the exit marker (0 when no such match
exists) and the output is the slice between the markers run through the
cleaning pipeline. -/
theorem executeCommand_parse_path :
    ∀ (st : ManagerState) (ctx : CommandContext) (env : ExecEnv) (s : Session),
      jsTrim ctx.command ≠ "" →
      alookup st.sessions (ctx.sessionId.getD "default") = some s →
      s.status ≠ .busy →
      s.status ≠ .closed →
      env.foundEnd = true →
      ((∀ si ei : Nat,
          lastIndexOf? env.buffer.data (markerStart env.timestamp).data = some si →
          lastIndexOf? env.buffer.data (markerEnd env.timestamp).data = some ei →
          si < ei →
          (executeCommand st ctx env).1 = .ok (parsedResult s ctx env si ei)
          ∧ (parsedResult s ctx env si ei).exitCode
              = some ((matchExitCode env.buffer (markerExit env.timestamp)).getD 0)
          ∧ (parsedResult s ctx env si ei).output
              = cleanPrompt (cleanCommandEcho (cleanMarkers (cleanOutput (jsSubstring env.buffer (si + (markerStart env.timestamp).length) ei)) ⟨markerStart env.timestamp, markerEnd env.timestamp, markerExit env.timestamp⟩) ctx.command))
       ∧ ((lastIndexOf? env.buffer.data (markerStart env.timestamp).data = none
            ∨ lastIndexOf? env.buffer.data (markerEnd env.timestamp).data = none
            ∨ (∃ si ei : Nat,
                lastIndexOf? env.buffer.data (markerStart env.timestamp).data = some si
                ∧ lastIndexOf? env.buffer.data (markerEnd env.timestamp).data = some ei
                ∧ ei ≤ si)) →
          (executeCommand st ctx env).1 = .ok (fallbackResult s ctx env)
          ∧ (fallbackResult s ctx env).output = cleanOutput env.buffer
          ∧ (fallbackResult s ctx env).exitCode = some 0
          ∧ (fallbackResult s ctx env).success = true)) := by
  intro st ctx env s hne hlk hb hcl hfe
  have hexec := executeCommand_accepted st ctx env s hne hlk hb hcl
  constructor
  · intro si ei hsi hei hlt
    refine ⟨?_, rfl, rfl⟩
    rw [hexec]
    show Except.ok (runCommand s ctx st.config env) = _
    unfold runCommand
    rw [hfe, if_pos rfl, hsi, hei]
    show Except.ok (if si < ei then parsedResult s ctx env si ei else fallbackResult s ctx env) = _
    rw [if_pos hlt]
  · intro hcase
    refine ⟨?_, rfl, rfl, rfl⟩
    rw [hexec]
    show Except.ok (runCommand s ctx st.config env) = _
    unfold runCommand
    rw [hfe, if_pos rfl]
    rcases hcase with hsi | hei | ⟨si, ei, hsi, hei, hle⟩
    · rcases h2 : lastIndexOf? env.buffer.data (markerEnd env.timestamp).data with _ | ei2 <;>
        simp [hsi, h2]
    · rcases h2 : lastIndexOf? env.buffer.data (markerStart env.timestamp).data with _ | si2 <;>
        simp [hei, h2]
    · rw [hsi, hei]
      show Except.ok (if si < ei then parsedResult s ctx env si ei else fallbackResult s ctx env) = _
      rw [if_neg (Nat.not_lt.mpr hle)]

/-- Fixture: a capture buffer with well-formed markers for timestamp 7. -/
def envParse : ExecEnv :=
  { timestamp := 7, foundEnd := true,
    buffer := "===START7===\nhello\n===EXIT7===0\n===END7===" }

/-- C3 witness: the parse path at a concrete buffer whose last start marker
sits at index 0 and last end marker at index 32. -/
theorem executeCommand_parse_path_witness :
    (executeCommand mgrReady { sessionId := some "s1", command := "echo hello" } envParse).1
      = .ok (parsedResult sampleSession { sessionId := some "s1", command := "echo hello" } envParse 0 32)
    ∧ (parsedResult sampleSession { sessionId := some "s1", command := "echo hello" } envParse 0 32).exitCode
      = some ((matchExitCode envParse.buffer (markerExit envParse.timestamp)).getD 0)
    ∧ (parsedResult sampleSession { sessionId := some "s1", command := "echo hello" } envParse 0 32).output
      = cleanPrompt (cleanCommandEcho (cleanMarkers (cleanOutput (jsSubstring envParse.buffer (0 + (markerStart envParse.timestamp).length) 32)) ⟨markerStart envParse.timestamp, markerEnd envParse.timestamp, markerExit envParse.timestamp⟩) "echo hello") :=
  ((executeCommand_parse_path mgrReady
      { sessionId := some "s1", command := "echo hello" } envParse sampleSession
      (by decide) (by decide) (by decide) (by decide) rfl).1 0 32
    (by decide) (by decide) (by decide))

end WslMcp
